import Mathlib

/-!
Verification of the sequelize where-clause compiler
(`packages/core/src/dialects/abstract/query-generator-typescript.ts`,
which contains both the `AbstractQueryGeneratorTypeScript` escaping layer
and the `WhereSqlBuilder` recursive-descent compiler).

The JavaScript code is shallowly embedded as executable Lean definitions.
The dynamically typed runtime values that flow through the compiler are
modelled by the `Val` inductive; the `SequelizeMethod` class hierarchy by
`SM`.  The mutually recursive compilation routines are modelled by a
fuel-indexed interpreter `interp` built from single-step implementations
(`escapeImpl`, `fmtSMImpl`, ...), one per source function; every call from
one routine to another consumes one unit of fuel, so `FRes.fuelOut`
witnesses fuel exhaustion and a result that is `fuelOut` at every fuel
witnesses divergence of the JavaScript original.

External collaborators that are not part of the sources (dialect services,
`parseAttributeSyntax`, data-type serialization, ...) are modelled from the
spec; each such definition carries a doc comment starting with
`Modelled from the spec:`.
-/

namespace SequelizeWhere

/-- The closed set of operator symbols (`Op.*` from `operators.js`).
Symbols are unique tags used as mapping keys, exactly as in the source. -/
inductive Operator where
  | eq | ne | gte | gt | lte | lt
  | is | isNot | inOp | notIn
  | like | notLike | iLike | notILike
  | regexp | notRegexp | iRegexp | notIRegexp
  | between | notBetween
  | overlap | contains | contained | adjacent
  | strictLeft | strictRight | noExtendRight | noExtendLeft
  | any | all | opMatch | anyKeyExists | allKeysExist
  | and | or | not | col | values | placeholder
  | startsWith | notStartsWith | endsWith | notEndsWith
  | substring | notSubstring
deriving DecidableEq, Repr

/-- The `description` of each operator symbol (used in error messages). -/
def operatorName : Operator → String
  | .eq => "eq" | .ne => "ne" | .gte => "gte" | .gt => "gt"
  | .lte => "lte" | .lt => "lt" | .is => "is" | .isNot => "isNot"
  | .inOp => "in" | .notIn => "notIn" | .like => "like"
  | .notLike => "notLike" | .iLike => "iLike" | .notILike => "notILike"
  | .regexp => "regexp" | .notRegexp => "notRegexp"
  | .iRegexp => "iRegexp" | .notIRegexp => "notIRegexp"
  | .between => "between" | .notBetween => "notBetween"
  | .overlap => "overlap" | .contains => "contains"
  | .contained => "contained" | .adjacent => "adjacent"
  | .strictLeft => "strictLeft" | .strictRight => "strictRight"
  | .noExtendRight => "noExtendRight" | .noExtendLeft => "noExtendLeft"
  | .any => "any" | .all => "all" | .opMatch => "match"
  | .anyKeyExists => "anyKeyExists" | .allKeysExist => "allKeysExist"
  | .and => "and" | .or => "or" | .not => "not" | .col => "col"
  | .values => "values" | .placeholder => "placeholder"
  | .startsWith => "startsWith" | .notStartsWith => "notStartsWith"
  | .endsWith => "endsWith" | .notEndsWith => "notEndsWith"
  | .substring => "substring" | .notSubstring => "notSubstring"

/-- The `WhereSqlBuilder.operatorMap` record: operator symbol to SQL text.
Operators without an entry (logical operators, the string-pattern helper
operators, ...) map to `none` (`undefined` in JS). -/
def operatorMap : Operator → Option String
  | .eq => some "=" | .ne => some "!="
  | .gte => some ">=" | .gt => some ">"
  | .lte => some "<=" | .lt => some "<"
  | .is => some "IS" | .isNot => some "IS NOT"
  | .inOp => some "IN" | .notIn => some "NOT IN"
  | .like => some "LIKE" | .notLike => some "NOT LIKE"
  | .iLike => some "ILIKE" | .notILike => some "NOT ILIKE"
  | .regexp => some "~" | .notRegexp => some "!~"
  | .iRegexp => some "~*" | .notIRegexp => some "!~*"
  | .between => some "BETWEEN" | .notBetween => some "NOT BETWEEN"
  | .overlap => some "&&" | .contains => some "@>"
  | .contained => some "<@" | .adjacent => some "-|-"
  | .strictLeft => some "<<" | .strictRight => some ">>"
  | .noExtendRight => some "&<" | .noExtendLeft => some "&>"
  | .any => some "ANY" | .all => some "ALL"
  | .opMatch => some "@@"
  | .anyKeyExists => some "?|" | .allKeysExist => some "?&"
  | _ => none

/-- Semantic data types (normalized, dialect-bound descriptors).
`rawName` models a purely descriptive SQL type string hint, which is not an
`AbstractDataType` instance in the source. -/
inductive DataType where
  | json
  | text
  | integer
  | boolean
  | date
  | arrayOf (elem : DataType)
  | range (sub : DataType)
  | rawName (s : String)
deriving DecidableEq, Repr

/-- Errors raised by the compiler (JS `TypeError` / `Error` / validation
errors, plus the wrapping performed by `formatWhereOptions`). -/
inductive SqlError where
  | typeError (msg : String)
  | genericError (msg : String)
  | validationError (msg : String)
  | invalidWhereClause (msg : String) (cause : SqlError)
deriving DecidableEq, Repr

/-- Result of a fueled computation: a value, a raised error, or fuel
exhaustion.  A computation equal to `fuelOut` at every fuel models
divergence of the JavaScript original. -/
inductive FRes (α : Type) where
  | ok (a : α)
  | err (e : SqlError)
  | fuelOut
deriving DecidableEq, Repr

namespace FRes

def bind : FRes α → (α → FRes β) → FRes β
  | .ok a, f => f a
  | .err e, _ => .err e
  | .fuelOut, _ => .fuelOut

def map (f : α → β) : FRes α → FRes β
  | .ok a => .ok (f a)
  | .err e => .err e
  | .fuelOut => .fuelOut

theorem bind_congr {x : FRes α} {f g : α → FRes β} (h : ∀ a, f a = g a) :
    x.bind f = x.bind g := by
  cases x <;> simp [bind, h]

end FRes

/-- Error-propagating map over a list (the semantics of a JS `array.map`
whose callback may throw or run out of fuel). -/
def mapFRes (f : α → FRes β) : List α → FRes (List β)
  | [] => .ok []
  | a :: as =>
    match f a with
    | .ok b => (mapFRes f as).map (b :: ·)
    | .err e => .err e
    | .fuelOut => .fuelOut

/-- A key of a plain JS object: a string key (attribute name / JSON path
segment) or a well-known operator symbol. -/
inductive ObjKey where
  | attr (name : String)
  | op (o : Operator)
deriving DecidableEq, Repr

mutual
/-- The `SequelizeMethod` class hierarchy from `utils/sequelize-method.js`:
`Literal`, `Fn`, `List`, `Value`, `Identifier`, `Cast`, `Col`, `Attribute`,
`Where`, `JsonPath` and `AssociationPath`. -/
inductive SM where
  | literal (parts : List LitPart)
  | fn (name : String) (args : List Val)
  | valueList (values : List Val)
  | value (v : Val)
  | identifier (s : String)
  | cast (v : Val) (castType : DataType)
  | col (identifiers : List String)
  | attribute (attributeName : String)
  | whereOp (w : WhereArg)
  | jsonPath (base : Val) (path : List String)
  | associationPath (assocPath : List String) (attr : String)

/-- The payload of a `Where` method: either an already-split `PojoWhere`
(left operand + attribute-hash value) or full `WhereOptions`. -/
inductive WhereArg where
  | pojo (leftOperand : Val) (whereValue : Val)
  | whereOptions (w : Val)

/-- One element of `Literal.val`: a raw SQL string or a nested method. -/
inductive LitPart where
  | str (s : String)
  | method (m : SM)

/-- A dynamically typed JavaScript runtime value as it flows through the
compiler: primitives, arrays, plain objects (ordered key/value lists with
string or operator-symbol keys) and `SequelizeMethod` instances. -/
inductive Val where
  | null
  | undefinedV
  | bool (b : Bool)
  | num (n : Int)
  | str (s : String)
  | arr (items : List Val)
  | obj (entries : List (ObjKey × Val))
  | method (m : SM)
end

/-- Model metadata (the narrow interface consumed from collaborators):
declared attribute types, attribute-to-column renames, and associations
with their target models. -/
inductive ModelDef where
  | mk (attrTypes : List (String × DataType))
       (columnNames : List (String × String))
       (assocs : List (String × ModelDef))

namespace ModelDef

def attrTypes : ModelDef → List (String × DataType)
  | .mk a _ _ => a

def columnNames : ModelDef → List (String × String)
  | .mk _ c _ => c

def assocs : ModelDef → List (String × ModelDef)
  | .mk _ _ a => a

/-- `modelDefinition.attributes.get(name)?.type`. -/
def getAttrType (m : ModelDef) (name : String) : Option DataType :=
  (m.attrTypes.find? (fun p => p.1 == name)).map (·.2)

/-- Modelled from the spec: `getColumnNameLoose` is part of the external
model-metadata interface; it returns the column name declared for an
attribute, or the attribute name itself when unknown. -/
def getColumnNameLoose (m : ModelDef) (name : String) : String :=
  ((m.columnNames.find? (fun p => p.1 == name)).map (·.2)).getD name

/-- Modelled from the spec: `modelDefinition.getAssociation(path)` is part
of the external model-metadata interface; given an association path it
returns the target model of the final association, or absence. -/
def getAssociationTarget : ModelDef → List String → Option ModelDef
  | _, [] => none
  | m, [n] => (m.assocs.find? (fun p => p.1 == n)).map (·.2)
  | m, n :: rest =>
    match m.assocs.find? (fun p => p.1 == n) with
    | some p => getAssociationTarget p.2 rest
    | none => none

end ModelDef

/-- Modelled from the spec: the dialect capability/rendering services
consumed from collaborators — identifier tick characters, string-literal
escaping, the JSON-operations feature flag, and the dialect-specific
JSON-path extraction rendering (`jsonPathExtractionQuery`). -/
structure Dialect where
  name : String
  tickL : String
  tickR : String
  escapeString : String → String
  supportsJsonOperations : Bool
  jsonExtract : String → List String → String

/-- The read-only compilation context shared by all routines: the dialect
and the `noTypeValidation` sequelize option. -/
structure QGCtx where
  dialect : Dialect
  noTypeValidation : Bool := false

/-- The options bag threaded through the recursion (`EscapeOptions` /
`FormatWhereOptions`): a declared type hint, an optional bind-parameter
collector, replacement data, and the owning model. -/
structure EscOpts where
  type : Option DataType := none
  bindParam : Option (Val → String) := none
  replacements : Option (List (String × String)) := none
  model : Option ModelDef := none

/-! ## Pure helpers shared by the compiler (bottom of the source file) -/

/-- A single-quote character, built numerically so the model file contains
no quote characters in literals. -/
def sqChar : Char := Char.ofNat 39

/-- A single-quote string. -/
def sqS : String := String.singleton sqChar

/-- Whether the pattern occurs at the head of the character list. -/
def startsWithChars : List Char → List Char → Bool
  | [], _ => true
  | _ :: _, [] => false
  | a :: as, b :: bs => a == b && startsWithChars as bs

/-- Whether the pattern occurs anywhere in the character list. -/
def containsChars (pat : List Char) : List Char → Bool
  | [] => startsWithChars pat []
  | c :: rest => startsWithChars pat (c :: rest) || containsChars pat rest

/-- String prefix test (char-level, kernel-reducible). -/
def strStartsWith (pre s : String) : Bool :=
  startsWithChars pre.data s.data

/-- String suffix test (char-level, kernel-reducible). -/
def strEndsWith (suf s : String) : Bool :=
  startsWithChars suf.data.reverse s.data.reverse

/-- Single-character containment test (char-level, kernel-reducible). -/
def strContainsChar (c : Char) (s : String) : Bool :=
  s.data.any (· == c)

/-- Case-insensitive substring test (the semantics of the JS regular
expression test `/ AND | OR /i` for a fixed pattern). -/
def strContainsCI (pat : String) (s : String) : Bool :=
  containsChars (pat.data.map Char.toUpper) (s.data.map Char.toUpper)

/-- Fueled splitter core (the fuel is the input length, so it never runs
out; structural recursion keeps it kernel-reducible). -/
def splitLoop (pat : List Char) : Nat → List Char → List Char → List (List Char)
  | 0, l, acc => [acc.reverse ++ l]
  | _ + 1, [], acc => [acc.reverse]
  | n + 1, c :: rest, acc =>
    if startsWithChars pat (c :: rest) then
      acc.reverse :: splitLoop pat n (List.drop (pat.length - 1) rest) []
    else splitLoop pat n rest (c :: acc)

/-- Split a string on a non-empty separator (char-level, kernel-reducible
counterpart of `String.splitOn`). -/
def splitOnM (pat s : String) : List String :=
  if pat.data.isEmpty then [s]
  else (splitLoop pat.data (s.data.length + 1) s.data []).map (fun cs => String.mk cs)

/-- Join strings with a separator (kernel-reducible). -/
def intercalateM (sep : String) : List String → String
  | [] => ""
  | [x] => x
  | x :: rest => x ++ sep ++ intercalateM sep rest

/-- The test `/ AND | OR /i.test(sql)` from `joinWithLogicalOperator`. -/
def testAndOr (s : String) : Bool :=
  strContainsCI " AND " s || strContainsCI " OR " s

/-- `joinWithLogicalOperator` from the source: filter out empty fragments,
return zero fragments as the empty string, a single fragment verbatim, and
otherwise parenthesize any fragment matching `/ AND | OR /i` before
joining with the connective. -/
def joinWithLogicalOperator (sqlArray : List String) (operator : Operator) : String :=
  let operatorSql := if operator == .and then " AND " else " OR "
  let filtered := sqlArray.filter (fun v => !(v == ""))
  match filtered with
  | [] => ""
  | [single] => single
  | multiple =>
    String.intercalate operatorSql
      (multiple.map (fun sql => if testAndOr sql then "(" ++ sql ++ ")" else sql))

/-- `wrapWithNot` from the source: empty SQL stays empty; SQL whose first
character is an opening parenthesis and whose last character is a closing
parenthesis is only prefixed with NOT; anything else is wrapped. -/
def wrapWithNot (sql : String) : String :=
  if sql == "" then ""
  else if strStartsWith "(" sql && strEndsWith ")" sql then "NOT " ++ sql
  else "NOT (" ++ sql ++ ")"

/-- `WhereSqlBuilder.#wrapJsonPath` from the source: an empty path leaves
the operand untouched; wrapping an existing `JsonPath` merges the paths;
any other operand is wrapped in a fresh `JsonPath`. -/
def wrapJsonPath (operand : Val) (jsonPath : List String) : Val :=
  if jsonPath.isEmpty then operand
  else
    match operand with
    | .method (.jsonPath base path) => .method (.jsonPath base (path ++ jsonPath))
    | _ => .method (.jsonPath operand jsonPath)

/-- `wrapAmbiguousWhere` from the source: a `Where` operand whose rendered
SQL contains a space is parenthesized when used as a bare operand. -/
def wrapAmbiguousWhere (operand : Val) (sql : String) : String :=
  match operand with
  | .method (.whereOp _) => if strContainsChar ' ' sql then "(" ++ sql ++ ")" else sql
  | _ => sql

/-- The binary-comparison string template of the source
(template literals of the shape left-space-op-space-right). -/
def joinBinOp (l op r : String) : String :=
  l ++ " " ++ op ++ " " ++ r

/-- `isPlainObject` from `utils/check.js` on our value model: true exactly
for plain objects (not arrays, not class instances, not primitives). -/
def isPlainObjectV : Val → Bool
  | .obj _ => true
  | _ => false

/-- `Array.isArray`. -/
def isArrV : Val → Bool
  | .arr _ => true
  | _ => false

/-- `value instanceof Literal`. -/
def isLiteralVal : Val → Bool
  | .method (.literal _) => true
  | _ => false

/-- `isNullish` from `utils/check.js` (`null` or `undefined`). -/
def isNullishV : Val → Bool
  | .null => true
  | .undefinedV => true
  | _ => false

/-- Property lookup on a plain object (first matching key). -/
def objGet (entries : List (ObjKey × Val)) (k : ObjKey) : Option Val :=
  (entries.find? (fun e => e.1 == k)).map (·.2)

/-- Property lookup defaulting to `undefined` (JS member access). -/
def getEntry (entries : List (ObjKey × Val)) (k : ObjKey) : Val :=
  (objGet entries k).getD .undefinedV

/-- Modelled from the spec: `getComplexKeys` from `utils/where.js` (not in
the sources) lists an object's operator-symbol keys and string keys; the
spec fixes only that the iteration order is deterministic and stable, and
we model it as operator keys first, then attribute keys, each in
declaration order. -/
def getComplexKeysM (entries : List (ObjKey × Val)) : List ObjKey :=
  (entries.filterMap fun e => match e.1 with | .op o => some (ObjKey.op o) | _ => none)
    ++ (entries.filterMap fun e => match e.1 with | .attr s => some (ObjKey.attr s) | _ => none)

/-- Modelled from the spec: a plain rendering of a runtime value used in
error messages (`NodeUtil.inspect` is an external library). -/
def inspectVal : Val → String
  | .null => "null"
  | .undefinedV => "undefined"
  | .bool b => if b then "true" else "false"
  | .num n => toString n
  | .str s => s
  | .arr _ => "[array]"
  | .obj _ => "[object]"
  | .method _ => "[method]"

mutual
/-- Modelled from the spec: a JSON-ish serialization of a runtime value,
used by the per-type serialization rules of the Value Escaper. -/
def jsonStringify : Val → String
  | .null => "null"
  | .undefinedV => "undefined"
  | .bool b => if b then "true" else "false"
  | .num n => toString n
  | .str s => "\"" ++ s ++ "\""
  | .arr items => "[" ++ String.intercalate "," (jsonStringifyList items) ++ "]"
  | .obj _ => "[object]"
  | .method _ => "[method]"

/-- Element-wise serialization of an array value. -/
def jsonStringifyList : List Val → List String
  | [] => []
  | v :: rest => jsonStringify v :: jsonStringifyList rest
end

/-- Modelled from the spec: `bestGuessDataTypeOfVal` from `sql-string.js`
(not in the sources) guesses a semantic type from the runtime shape of a
value. -/
def bestGuessDataTypeOfVal : Val → DataType
  | .num _ => .integer
  | .bool _ => .boolean
  | .str _ => .text
  | .arr [] => .arrayOf .text
  | .arr (x :: _) => .arrayOf (bestGuessDataTypeOfVal x)
  | _ => .json

/-- Modelled from the spec: `validateDataType` from `data-types-utils.js`
(not in the sources) checks a value against its resolved semantic type and
returns an error on mismatch (for example a non-numeric value for a
numeric column). -/
def validateDataType : DataType → Val → Option SqlError
  | .integer, v =>
    match v with
    | .num _ => none
    | _ => some (.validationError "value is not a valid integer")
  | .boolean, v =>
    match v with
    | .bool _ => none
    | _ => some (.validationError "value is not a valid boolean")
  | .text, v =>
    match v with
    | .str _ => none
    | _ => some (.validationError "value is not a valid string")
  | .arrayOf t, v =>
    match v with
    | .arr items => (items.map (fun x => validateDataType t x)).foldl (fun acc o => acc <|> o) none
    | _ => some (.validationError "value is not a valid array")
  | _, _ => none

/-- `AbstractQueryGeneratorTypeScript.validate` from the source: skipped
under `noTypeValidation` or for nullish values, a no-op for purely
descriptive string type hints, otherwise delegates to `validateDataType`. -/
def validateVal (ctx : QGCtx) (value : Val) (type : DataType) : Option SqlError :=
  if ctx.noTypeValidation || isNullishV value then none
  else
    match type with
    | .rawName _ => none
    | t => validateDataType t value

/-- Modelled from the spec: `sequelize.normalizeDataType` is external; the
semantic types of this model are already normalized, so it is the
identity. -/
def normalizeDataTypeM (t : DataType) : DataType := t

/-- Modelled from the spec: `attributeTypeToSql` is external; it renders a
semantic type as SQL type text. -/
def dtToSql : DataType → String
  | .json => "JSON"
  | .text => "TEXT"
  | .integer => "INTEGER"
  | .boolean => "BOOLEAN"
  | .date => "DATETIME"
  | .arrayOf t => dtToSql t ++ "[]"
  | .range _ => "RANGE"
  | .rawName s => String.mk (s.data.map Char.toUpper)

/-- Modelled from the spec: each semantic type carries its own
literal-serialization rule (external `type.escape`): integers render in
decimal, strings and JSON through the dialect string escaper, arrays
element-wise. -/
def typeEscape (d : Dialect) : DataType → Val → String
  | .integer, .num n => toString n
  | .integer, v => jsonStringify v
  | .boolean, .bool b => if b then "true" else "false"
  | .boolean, v => jsonStringify v
  | .text, .str s => d.escapeString s
  | .text, v => d.escapeString (jsonStringify v)
  | .json, v => d.escapeString (jsonStringify v)
  | .arrayOf t, .arr items =>
    "ARRAY[" ++ String.intercalate ", " (items.map (typeEscape d t)) ++ "]"
  | .arrayOf _, v => jsonStringify v
  | .range _, v => jsonStringify v
  | .date, v => d.escapeString (jsonStringify v)
  | .rawName _, v => jsonStringify v

/-- Modelled from the spec: `quoteIdentifier` from `utils/dialect.js` (not
in the sources) wraps an identifier in the dialect tick characters. -/
def quoteIdentifierD (d : Dialect) (identifier : String) : String :=
  d.tickL ++ identifier ++ d.tickR

/-- `formatAssociationPath` from the source. -/
def formatAssociationPathD (d : Dialect) (assocPath : List String) (attr : String) : String :=
  quoteIdentifierD d (String.intercalate "->" assocPath) ++ "." ++ quoteIdentifierD d attr

/-- Modelled from the spec: `injectReplacements` from `utils/sql.js` (not
in the sources) substitutes named placeholders inside raw SQL and rejects
positional placeholders. -/
def injectReplacementsM (sql : String) (repl : List (String × String)) : FRes String :=
  if strContainsChar '?' sql then
    .err (.typeError "literal includes positional replacements, only named replacements are allowed")
  else .ok (repl.foldl (fun acc p => acc.replace (":" ++ p.1) p.2) sql)

/-- Turn dot-separated attribute syntax into an attribute or a JSON path. -/
def mkDotted (segs : List String) : SM :=
  match segs with
  | [] => .attribute ""
  | [single] => .attribute single
  | first :: rest => .jsonPath (.method (.attribute first)) rest

/-- Modelled from the spec: the non-cast part of `parseAttributeSyntax`
(association references between dollar signs, JSON paths after dots). -/
def parseAttributeBase (name : String) : SM :=
  if strStartsWith "$" name then
    match splitOnM "$" (String.mk (name.data.drop 1)) with
    | assocPart :: rest =>
      let segs := splitOnM "." assocPart
      let tail := (splitOnM "." (intercalateM "$" rest)).filter (fun s => !(s == ""))
      match segs.dropLast, segs.getLast? with
      | path, some attr =>
        let base : SM := if path.isEmpty then .attribute attr else .associationPath path attr
        if tail.isEmpty then base else .jsonPath (.method base) tail
      | _, none => .attribute name
    | [] => .attribute name
  else mkDotted (splitOnM "." name)

/-- Modelled from the spec: `parseAttributeSyntax` from `utils/attribute.js`
(not in the sources) parses the special attribute syntaxes — association
references, JSON paths, and casts — returning a plain attribute operand
for plain names. -/
def parseAttributeSyntax (name : String) : SM :=
  match splitOnM "::" name with
  | [base] => parseAttributeBase base
  | base :: castParts =>
    .cast (.method (parseAttributeBase base)) (.rawName (intercalateM "::" castParts))
  | [] => .attribute name

/-- `WhereSqlBuilder.#getOperandType` from the source: resolves the
declared semantic type of an operand against the (optional) owning model,
descending through casts, JSON paths and association paths.  The
association branch is inlined with the attribute lookup it delegates to. -/
def getOperandType (operand : Val) (model : Option ModelDef) : Option DataType :=
  match model with
  | none => none
  | some m =>
    match operand with
    | .method (.cast _ t) => some (normalizeDataTypeM t)
    | .method (.jsonPath base _) =>
      match getOperandType base (some m) with
      | some t => some t
      | none => some .json
    | .method (.associationPath path attr) =>
      match m.getAssociationTarget path with
      | none => none
      | some target => target.getAttrType attr
    | .method (.attribute name) => m.getAttrType name
    | _ => none

/-- Whether a resolved left type is an array type (the guard of the
implicit-IN inference). -/
def isArrayTypeO : Option DataType → Bool
  | some (.arrayOf _) => true
  | _ => false

/-- The operator-inference rule of `formatPojoWhere`: an array right-hand
value with a non-array left-hand declared type infers IN; a null
right-hand value infers IS; anything else infers equality. -/
def inferOperator (lty : Option DataType) (right : Val) : Operator :=
  if isArrV right && !isArrayTypeO lty then .inOp
  else
    match right with
    | .null => .is
    | _ => .eq

/-- The backwards-compatibility rewrite of `formatPojoWhere`: a null
right-hand value turns equality into IS and inequality into IS NOT. -/
def rewriteNullOp (op : Operator) (right : Val) : Operator :=
  match right with
  | .null =>
    match op with
    | .eq => .is
    | .ne => .isNot
    | o => o
  | _ => op

/-- Whether a resolved left type is a concrete (`AbstractDataType`)
instance that is neither a range nor an array (the `Op.contained`
reinterpretation guard). -/
def isPlainDT : DataType → Bool
  | .range _ => false
  | .arrayOf _ => false
  | .rawName _ => false
  | _ => true

/-- Operator SQL text as interpolated by the source templates (a missing
entry interpolates as the JS string undefined). -/
def opSqlOf (o : Operator) : String :=
  (operatorMap o).getD "undefined"

/-! ## The fueled interpreter

Each mutually recursive routine of the source is modelled as a plain,
non-recursive step implementation that receives the previous fuel level of
the whole interpreter as the `rec` record; `interp` ties the knot by
structural recursion on the fuel, so every concrete run is computable and
`FRes.fuelOut` at every fuel witnesses divergence. -/

/-- The recursive interface between the compiler routines — one field per
knot of the mutual recursion (`escape`, `formatSequelizeMethod`, the
top-level AND/OR/NOT handler, and the nested attribute-value handler). -/
structure Interp where
  escape : Val → EscOpts → FRes String
  fmtSM : SM → EscOpts → FRes String
  handleImplicitAnd : Val → Operator → EscOpts → FRes String
  handleNested : Option DataType → Val → Val → Bool → Operator → List String → EscOpts →
    Option DataType × FRes String

/-- `escapeList` from the source: escape each element with the same
options and render a parenthesized, comma-joined list. -/
def escapeListImpl (rec : Interp) (values : List Val) (options : EscOpts) : FRes String :=
  (mapFRes (fun v => rec.escape v options) values).map
    (fun ss => "(" ++ String.intercalate ", " ss ++ ")")

/-- `WhereSqlBuilder.#formatOpValues` from the source: a `VALUES` list for
an `Op.values` object, otherwise escape with an array-lifted type hint.
Both paths pass a fresh options object holding only the type. -/
def formatOpValuesImpl (rec : Interp) (value : Val) (type : Option DataType) : FRes String :=
  match value with
  | .obj entries =>
    match objGet entries (.op .values) with
    | some inner =>
      let operand : List Val := match inner with | .arr xs => xs | v => [v]
      (mapFRes (fun v => rec.escape v { type := type }) operand).map
        (fun ss => "VALUES " ++ String.intercalate ", " (ss.map (fun s => "(" ++ s ++ ")")))
    | none => rec.escape value { type := type.map DataType.arrayOf }
  | _ => rec.escape value { type := type.map DataType.arrayOf }

/-- `WhereSqlBuilder.#formatOpAnyAll` from the source: renders
`ANY (...)` / `ALL (...)` for plain objects keyed by `Op.any` / `Op.all`,
and the empty string (JS falsy) otherwise. -/
def formatOpAnyAllImpl (rec : Interp) (value : Val) (type : Option DataType) : FRes String :=
  match value with
  | .obj entries =>
    match objGet entries (.op .any) with
    | some inner => (formatOpValuesImpl rec inner type).map (fun s => "ANY (" ++ s ++ ")")
    | none =>
      match objGet entries (.op .all) with
      | some inner => (formatOpValuesImpl rec inner type).map (fun s => "ALL (" ++ s ++ ")")
      | none => .ok ""
  | _ => .ok ""

/-- `formatBinaryOperation` from the source: look up the operator text
(erroring when the dialect has none), escape the left operand, splice a
rendered ANY/ALL quantified expression verbatim or escape the right
operand, and parenthesize ambiguous `Where` operands. -/
def formatBinaryOperationImpl (rec : Interp) (left : Val) (lty : Option DataType)
    (operator : Operator) (right : Val) (rty : Option DataType) (options : EscOpts) :
    FRes String :=
  match operatorMap operator with
  | none =>
    .err (.typeError ("Operator Op." ++ operatorName operator
      ++ " does not exist or is not supported by this dialect."))
  | some operatorSql =>
    (rec.escape left { options with type := lty <|> rty }).bind fun leftSql =>
      let rightSqlF : FRes String :=
        match formatOpAnyAllImpl rec right (rty <|> lty) with
        | .ok "" => rec.escape right { options with type := rty <|> lty }
        | r => r
      rightSqlF.map fun rightSql =>
        joinBinOp (wrapAmbiguousWhere left leftSql) operatorSql (wrapAmbiguousWhere right rightSql)

/-- The error raised by the `Op.in` / `Op.notIn` handler for a right-hand
operand that is neither an array nor a literal. -/
def inNotArrayError : SqlError :=
  .typeError "Operators Op.in and Op.notIn must be called with an array of values, or a literal"

/-- The `[Op.in]` / `[Op.notIn]` handler from the source: a literal right
operand is escaped; an empty array renders the empty string for NOT IN and
a literal null list for IN; a non-empty array becomes an escaped list; and
anything else is a hard error. -/
def opInImpl (rec : Interp) (left : Val) (lty : Option DataType) (operator : Operator)
    (right : Val) (rty : Option DataType) (options : EscOpts) : FRes String :=
  let rightEscapeOptions := { options with type := rty <|> lty }
  let leftEscapeOptions := { options with type := lty <|> rty }
  let finish : FRes String → FRes String := fun rightSqlF =>
    rightSqlF.bind fun rightSql =>
      (rec.escape left leftEscapeOptions).map fun leftSql =>
        joinBinOp leftSql (opSqlOf operator) rightSql
  match right with
  | .method (.literal parts) => finish (rec.escape (.method (.literal parts)) rightEscapeOptions)
  | .arr [] =>
    if operator == .notIn then .ok ""
    else finish (.ok "(NULL)")
  | .arr items => finish (escapeListImpl rec items rightEscapeOptions)
  | _ => .err inNotArrayError

/-- The `[Op.is]` / `[Op.isNot]` handler from the source: only null,
booleans and literals are allowed on the right. -/
def opIsImpl (rec : Interp) (left : Val) (lty : Option DataType) (operator : Operator)
    (right : Val) (rty : Option DataType) (options : EscOpts) : FRes String :=
  match right with
  | .null => formatBinaryOperationImpl rec left lty operator right rty options
  | .bool _ => formatBinaryOperationImpl rec left lty operator right rty options
  | .method (.literal _) => formatBinaryOperationImpl rec left lty operator right rty options
  | _ => .err (.genericError "Operators Op.is and Op.isNot can only be used with null, true, false or a literal.")

/-- The `[Op.between]` / `[Op.notBetween]` handler from the source: the
left operand is escaped first; the right operand must be a method or a
two-element array rendered as lower AND upper. -/
def opBetweenImpl (rec : Interp) (left : Val) (lty : Option DataType) (operator : Operator)
    (right : Val) (rty : Option DataType) (options : EscOpts) : FRes String :=
  let rightEscapeOptions := { options with type := rty <|> lty }
  let leftEscapeOptions := { options with type := lty <|> rty }
  (rec.escape left leftEscapeOptions).bind fun leftSql =>
    let rightSqlF : FRes String :=
      match right with
      | .method m => rec.escape (.method m) rightEscapeOptions
      | .arr [a, b] =>
        (rec.escape a rightEscapeOptions).bind fun s1 =>
          (rec.escape b rightEscapeOptions).map fun s2 => s1 ++ " AND " ++ s2
      | _ => .err (.genericError "Operators Op.between and Op.notBetween must be used with an array of two values, or a literal.")
    rightSqlF.map fun rightSql => joinBinOp leftSql (opSqlOf operator) rightSql

/-- The `[Op.contains]` handler from the source: when the left operand is
a range and the right operand is a non-array of unknown type, the right
operand is reinterpreted as a scalar of the range subtype. -/
def opContainsImpl (rec : Interp) (left : Val) (lty : Option DataType)
    (right : Val) (rty : Option DataType) (options : EscOpts) : FRes String :=
  match rty, lty with
  | none, some (.range sub) =>
    if isArrV right then
      formatBinaryOperationImpl rec left (some (.range sub)) .contains right none options
    else
      formatBinaryOperationImpl rec left (some (.range sub)) .contains right (some sub) options
  | _, _ => formatBinaryOperationImpl rec left lty .contains right rty options

/-- The `[Op.contained]` handler from the source: when the left operand is
a plain concrete type and the right operand is an array, the right operand
is reinterpreted as a range over the left type. -/
def opContainedImpl (rec : Interp) (left : Val) (lty : Option DataType)
    (right : Val) (rty : Option DataType) (options : EscOpts) : FRes String :=
  match lty, right with
  | some t, .arr items =>
    if isPlainDT t then
      formatBinaryOperationImpl rec left (some t) .contained (.arr items) (some (.range t)) options
    else formatBinaryOperationImpl rec left lty .contained right rty options
  | _, _ => formatBinaryOperationImpl rec left lty .contained right rty options

/-- `formatSubstring` from the source: a string right operand gets percent
markers injected textually; any other right operand is wrapped in a
CONCAT literal whose middle part is a nested `Value` method. -/
def formatSubstringImpl (rec : Interp) (ctx : QGCtx) (left : Val) (lty : Option DataType)
    (operator : Operator) (right : Val) (rty : Option DataType) (options : EscOpts)
    (start finish : Bool) : FRes String :=
  match right with
  | .str s =>
    let startToken := if start then "%" else ""
    let endToken := if finish then "%" else ""
    formatBinaryOperationImpl rec left lty operator (.str (startToken ++ s ++ endToken)) rty options
  | r =>
    let escapedPercent := ctx.dialect.escapeString "%"
    let parts : List LitPart :=
      [LitPart.str "CONCAT("]
        ++ (if start then [LitPart.str escapedPercent, LitPart.str ", "] else [])
        ++ [LitPart.method (.value r)]
        ++ (if finish then [LitPart.str ", ", LitPart.str escapedPercent] else [])
        ++ [LitPart.str ")"]
    formatBinaryOperationImpl rec left lty operator (.method (.literal parts)) rty options

/-- The handler dispatch of `formatPojoWhere` (the `operator in this`
check): after the right operand has its attribute syntax parsed and its
type resolved, operators with a dedicated handler are dispatched to it and
everything else falls back to the generic binary formatter. -/
def leafDispatch (rec : Interp) (ctx : QGCtx) (lty : Option DataType) (left : Val)
    (operator : Operator) (right0 : Val) (options : EscOpts) : FRes String :=
  let right := match right0 with
    | .method (.attribute n) => Val.method (parseAttributeSyntax n)
    | r => r
  let rty := getOperandType right options.model
  match operator with
  | .inOp => opInImpl rec left lty operator right rty options
  | .notIn => opInImpl rec left lty operator right rty options
  | .is => opIsImpl rec left lty operator right rty options
  | .isNot => opIsImpl rec left lty operator right rty options
  | .between => opBetweenImpl rec left lty operator right rty options
  | .notBetween => opBetweenImpl rec left lty operator right rty options
  | .contains => opContainsImpl rec left lty right rty options
  | .contained => opContainedImpl rec left lty right rty options
  | .startsWith => formatSubstringImpl rec ctx left lty .like right rty options false true
  | .notStartsWith => formatSubstringImpl rec ctx left lty .notLike right rty options false true
  | .endsWith => formatSubstringImpl rec ctx left lty .like right rty options true false
  | .notEndsWith => formatSubstringImpl rec ctx left lty .notLike right rty options true false
  | .substring => formatSubstringImpl rec ctx left lty .like right rty options true true
  | .notSubstring => formatSubstringImpl rec ctx left lty .notLike right rty options true true
  | .anyKeyExists => formatBinaryOperationImpl rec left lty .anyKeyExists right (some (.arrayOf .text)) options
  | .allKeysExist => formatBinaryOperationImpl rec left lty .allKeysExist right (some (.arrayOf .text)) options
  | op => formatBinaryOperationImpl rec left lty op right rty options

/-- The leaf-resolution closure of `formatPojoWhere` (made explicit, with
the mutable `leftDataType` threaded as state): default an unknown left
type to JSON under a JSON path, rewrite the legacy `Op.col`, quantify
`Op.any` / `Op.all`, infer a missing operator, apply the null rewrite,
then dispatch. -/
def formatWhereLeafImpl (rec : Interp) (ctx : QGCtx) (ltyIn : Option DataType)
    (left : Val) (op0 : Option Operator) (right0 : Val) (options : EscOpts) :
    Option DataType × FRes String :=
  let lty := match ltyIn, left with
    | none, .method (.jsonPath _ _) => some DataType.json
    | l, _ => l
  match op0, right0 with
  | some .col, .str s =>
    (lty, leafDispatch rec ctx lty left .eq (Val.method (.col [s])) options)
  | some .col, _ =>
    -- a non-string Op.col value crashes inside formatCol in JS; modelled
    -- as an eager error
    (lty, .err (.typeError "Op.col must be paired with a string"))
  | op0, right0 =>
    let step : Option Operator × Val :=
      match op0, right0 with
      | some .any, r => (some Operator.eq, Val.obj [(.op .any, r)])
      | some .all, r => (some Operator.eq, Val.obj [(.op .all, r)])
      | o, r => (o, r)
    let op1 := step.1
    let right1 := step.2
    let op2 := match op1 with
      | none => inferOperator lty right1
      | some o => o
    let op3 := rewriteNullOp op2 right1
    (lty, leafDispatch rec ctx lty left op3 right1 options)

/-- The element loop of the `Op.and` / `Op.or` array case inside the
nested handler, threading the leaf state through the elements. -/
def nestedArrayLoop (rec : Interp) (leftOperand : Val) (allow : Bool)
    (path : List String) (options : EscOpts) :
    Option DataType → List Val → Option DataType × FRes (List String)
  | lty, [] => (lty, .ok [])
  | lty, v :: rest =>
    match rec.handleNested lty leftOperand v allow .and path options with
    | (lty2, .ok s) =>
      match nestedArrayLoop rec leftOperand allow path options lty2 rest with
      | (lty3, r) => (lty3, r.map (s :: ·))
    | (lty2, .err e) => (lty2, .err e)
    | (lty2, .fuelOut) => (lty2, .fuelOut)

/-- The key loop of `#handleRecursiveNotOrAndNestedPathRecursive`: string
keys extend the JSON path, `Op.not` wraps, `Op.and` / `Op.or` recurse (an
array value element-wise), and any other operator key is a leaf
comparison. -/
def nestedKeysLoop (rec : Interp) (ctx : QGCtx) (leftOperand : Val)
    (entries : List (ObjKey × Val)) (allow : Bool) (operator : Operator)
    (path : List String) (options : EscOpts) :
    Option DataType → List ObjKey → Option DataType × FRes (List String)
  | lty, [] => (lty, .ok [])
  | lty, key :: rest =>
    let value := getEntry entries key
    let stepPair : Option DataType × FRes String :=
      match key with
      | .attr s => rec.handleNested lty leftOperand value allow operator (path ++ [s]) options
      | .op .not =>
        match rec.handleNested lty leftOperand value allow .and path options with
        | (l2, r) => (l2, r.map wrapWithNot)
      | .op o =>
        if o == .and || o == .or then
          match value with
          | .arr items =>
            match nestedArrayLoop rec leftOperand allow path options lty items with
            | (l2, r) => (l2, r.map (fun parts => joinWithLogicalOperator parts o))
          | _ => rec.handleNested lty leftOperand value allow o path options
        else
          formatWhereLeafImpl rec ctx lty (wrapJsonPath leftOperand path) (some o) value options
    match stepPair with
    | (lty2, .ok s) =>
      match nestedKeysLoop rec ctx leftOperand entries allow operator path options lty2 rest with
      | (lty3, r) => (lty3, r.map (s :: ·))
    | (lty2, .err e) => (lty2, .err e)
    | (lty2, .fuelOut) => (lty2, .fuelOut)

/-- `#handleRecursiveNotOrAndNestedPathRecursive` from the source: a
non-plain-object value is a leaf; a plain object with string keys but no
JSON-path permission is an opaque leaf value; otherwise iterate the string
keys followed by the operator keys and join with the connective. -/
def handleNestedImpl (rec : Interp) (ctx : QGCtx) (lty : Option DataType)
    (leftOperand whereValue : Val) (allowJsonPath : Bool) (operator : Operator)
    (parentJsonPath : List String) (options : EscOpts) :
    Option DataType × FRes String :=
  match whereValue with
  | .obj entries =>
    let stringKeys := entries.filterMap (fun e => match e.1 with | .attr s => some s | _ => none)
    if !allowJsonPath && !stringKeys.isEmpty then
      formatWhereLeafImpl rec ctx lty (wrapJsonPath leftOperand parentJsonPath) none
        (.obj entries) options
    else
      let keys := (stringKeys.map ObjKey.attr)
        ++ entries.filterMap (fun e => match e.1 with | .op o => some (ObjKey.op o) | _ => none)
      match nestedKeysLoop rec ctx leftOperand entries allowJsonPath operator parentJsonPath
          options lty keys with
      | (lty2, partsR) =>
        (lty2, partsR.map (fun parts => joinWithLogicalOperator parts operator))
  | v => formatWhereLeafImpl rec ctx lty (wrapJsonPath leftOperand parentJsonPath) none v options

/-- `formatPojoWhere` from the source: parse the left operand attribute
syntax early, resolve its declared type, decide whether JSON-path descent
is allowed (unknown or JSON-typed left operand), and run the nested
handler. -/
def formatPojoWhereImpl (rec : Interp) (leftOperand whereValue : Val) (options : EscOpts) :
    FRes String :=
  let leftPre : Val := match leftOperand with
    | .method (.attribute n) => .method (parseAttributeSyntax n)
    | v => v
  let leftDataType := getOperandType leftPre options.model
  let operandIsJsonColumn : Bool := match leftDataType with
    | none => true
    | some .json => true
    | some _ => false
  (rec.handleNested leftDataType leftPre whereValue operandIsJsonColumn .and [] options).2

/-- The element loop of the implicit-AND array case of
`#handleRecursiveNotOrAndWithImplicitAndArray` (an undefined element
renders the empty-string marker). -/
def implicitArrayLoop (rec : Interp) (options : EscOpts) : List Val → FRes (List String)
  | [] => .ok []
  | part :: rest =>
    let step : FRes String :=
      match part with
      | .undefinedV => .ok ""
      | p => rec.handleImplicitAnd p .and options
    match step with
    | .ok s => (implicitArrayLoop rec options rest).map (s :: ·)
    | .err e => .err e
    | .fuelOut => .fuelOut

/-- The key loop of `#handleRecursiveNotOrAndWithImplicitAndArray`:
`Op.not` wraps, `Op.and` / `Op.or` recurse with that connective, any other
symbol is a hard error, and a string key builds an attribute `PojoWhere`
handed to `formatPojoWhere`. -/
def implicitKeysLoop (rec : Interp) (entries : List (ObjKey × Val)) (options : EscOpts) :
    List ObjKey → FRes (List String)
  | [] => .ok []
  | key :: rest =>
    let value := getEntry entries key
    let step : FRes String :=
      match key with
      | .op .not => (rec.handleImplicitAnd value .and options).map wrapWithNot
      | .op .and => rec.handleImplicitAnd value .and options
      | .op .or => rec.handleImplicitAnd value .or options
      | .op o =>
        .err (.typeError ("Invalid Query: the input includes the Symbol Operator Op."
          ++ operatorName o ++ " but only attributes, Op.and, Op.or, and Op.not are allowed."))
      | .attr s => formatPojoWhereImpl rec (Val.method (.attribute s)) value options
    match step with
    | .ok s => (implicitKeysLoop rec entries options rest).map (s :: ·)
    | .err e => .err e
    | .fuelOut => .fuelOut

/-- The top-level error message for a scalar where input. -/
def invalidQueryMsg (v : Val) : String :=
  "Invalid Query: expected a plain object, an array or a sequelize SQL method but got "
    ++ inspectVal v ++ " "

/-- `#handleRecursiveNotOrAndWithImplicitAndArray` from the source: arrays
are implicit AND groups, plain objects iterate their complex keys,
sequelize methods are formatted directly, and anything else is a hard
error. -/
def handleImplicitAndImpl (rec : Interp) (input : Val) (logicalOperator : Operator)
    (options : EscOpts) : FRes String :=
  match input with
  | .arr items =>
    (implicitArrayLoop rec options items).map
      (fun parts => joinWithLogicalOperator parts logicalOperator)
  | .obj entries =>
    (implicitKeysLoop rec entries options (getComplexKeysM entries)).map
      (fun parts => joinWithLogicalOperator parts logicalOperator)
  | .method m => rec.fmtSM m options
  | v => .err (.typeError (invalidQueryMsg v))

/-- The error raised for a raw string where option. -/
def rawQueryError : SqlError :=
  .typeError "Support for raw query strings in the where option has been removed. Use literal instead"

/-- The wrapper message added by `formatWhereOptions` around any inner
compilation error. -/
def whereErrMsg (v : Val) : String :=
  "Invalid value received for the where option. Refer to the sequelize documentation to learn which values the where option accepts. Value: "
    ++ inspectVal v

/-- `formatWhereOptions` from the source: a raw string is rejected
outright; any error from the recursive handler is wrapped in a descriptive
TypeError. -/
def formatWhereOptionsImpl (rec : Interp) (whereV : Val) (options : EscOpts) : FRes String :=
  match whereV with
  | .str _ => .err rawQueryError
  | w =>
    match rec.handleImplicitAnd w .and options with
    | .err e => .err (.invalidWhereClause (whereErrMsg w) e)
    | r => r

/-- `formatLiteral` from the source.  Note the faithful transcription of
the source bug: the map over `piece.val` formats `piece` (the whole
literal) instead of `part` whenever the part is a `SequelizeMethod`, so
such literals recurse into themselves. -/
def formatLiteralImpl (rec : Interp) (parts : List LitPart) (options : EscOpts) : FRes String :=
  (mapFRes (fun part =>
      match part with
      | LitPart.str s => FRes.ok s
      | LitPart.method _ => rec.fmtSM (.literal parts) options)
    parts).bind fun ss =>
      let sql := String.join ss
      match options.replacements with
      | some repl => injectReplacementsM sql repl
      | none => .ok sql

/-- `formatAttribute` from the source: parse the attribute syntax,
delegate non-attribute parses back to the method formatter, and otherwise
quote the (model-resolved) column name. -/
def formatAttributeImpl (rec : Interp) (ctx : QGCtx) (attributeName : String)
    (options : EscOpts) : FRes String :=
  match parseAttributeSyntax attributeName with
  | SM.attribute parsedName =>
    match options.model with
    | none => .ok (quoteIdentifierD ctx.dialect parsedName)
    | some m => .ok (quoteIdentifierD ctx.dialect (m.getColumnNameLoose parsedName))
  | other => rec.fmtSM other options

/-- `formatFn` from the source. -/
def formatFnImpl (rec : Interp) (name : String) (args : List Val) (options : EscOpts) :
    FRes String :=
  (mapFRes (fun arg =>
      match arg with
      | .method m => rec.fmtSM m options
      | v => rec.escape v options)
    args).map fun ss => name ++ "(" ++ String.intercalate ", " ss ++ ")"

/-- `formatCast` from the source. -/
def formatCastImpl (rec : Interp) (v : Val) (castType : DataType) (options : EscOpts) :
    FRes String :=
  (rec.escape v options).map fun s =>
    "CAST(" ++ s ++ " AS "
      ++ String.mk ((dtToSql (normalizeDataTypeM castType)).data.map Char.toUpper) ++ ")"

/-- `formatCol` from the source: a lone identifier starting with a star
renders verbatim as a star; otherwise the identifiers are quoted through
the legacy `quote` service.  Modelled from the spec: `quote` is declared
on a subclass outside the sources; per the spec it is identifier quoting,
joining multi-part identifiers with a dot. -/
def formatColImpl (ctx : QGCtx) (identifiers : List String) : FRes String :=
  match identifiers with
  | [single] =>
    if strStartsWith "*" single then .ok "*"
    else .ok (quoteIdentifierD ctx.dialect single)
  | ids => .ok (String.intercalate "." (ids.map (quoteIdentifierD ctx.dialect)))

/-- `formatJsonPath` from the source, with `jsonPathExtractionQuery`
modelled from the spec as the dialect JSON-extraction service guarded by
the JSON-operations feature flag. -/
def formatJsonPathImpl (rec : Interp) (ctx : QGCtx) (base : Val) (path : List String)
    (options : EscOpts) : FRes String :=
  (rec.escape base options).bind fun value =>
    if path.isEmpty then .ok value
    else if !ctx.dialect.supportsJsonOperations then
      .err (.genericError ("JSON operations are not supported in " ++ ctx.dialect.name ++ "."))
    else .ok (ctx.dialect.jsonExtract value path)

/-- `formatSequelizeMethod` from the source: dispatch on the method
class. -/
def fmtSMImpl (rec : Interp) (ctx : QGCtx) (piece : SM) (options : EscOpts) : FRes String :=
  match piece with
  | .literal parts => formatLiteralImpl rec parts options
  | .fn name args => formatFnImpl rec name args options
  | .valueList values => escapeListImpl rec values options
  | .value v => rec.escape v options
  | .identifier s => .ok (quoteIdentifierD ctx.dialect s)
  | .cast v t => formatCastImpl rec v t options
  | .col ids => formatColImpl ctx ids
  | .attribute n => formatAttributeImpl rec ctx n options
  | .whereOp (.pojo l v) => formatPojoWhereImpl rec l v options
  | .whereOp (.whereOptions w) => formatWhereOptionsImpl rec w options
  | .jsonPath base path => formatJsonPathImpl rec ctx base path options
  | .associationPath ap attr => .ok (formatAssociationPathD ctx.dialect ap attr)

/-- The legacy `Op.col` plain-object rewrite at the top of `escape`. -/
def colRewrite (v : Val) : Except SqlError Val :=
  match v with
  | .obj entries =>
    match objGet entries (.op .col) with
    | some (.str s) => .ok (.method (.col [s]))
    | some _ => .error (.typeError "Op.col must be used with a string")
    | none => .ok v
  | v => .ok v

/-- `escape` from the source: rewrite the legacy `Op.col` object, format
sequelize methods, reject undefined, render null (inline or as a bind
parameter), then resolve the effective type, validate, and render through
the type (inline or as a bind parameter). -/
def escapeImpl (rec : Interp) (ctx : QGCtx) (value0 : Val) (options : EscOpts) : FRes String :=
  match colRewrite value0 with
  | .error e => .err e
  | .ok value =>
    match value with
    | .method m => rec.fmtSM m options
    | .undefinedV => .err (.typeError "\"undefined\" cannot be escaped")
    | .null =>
      match options.bindParam with
      | some bp => .ok (bp .null)
      | none => .ok "NULL"
    | v =>
      let type := match options.type with
        | none => bestGuessDataTypeOfVal v
        | some (.rawName _) => bestGuessDataTypeOfVal v
        | some t => normalizeDataTypeM t
      match validateVal ctx v type with
      | some e => .err e
      | none =>
        match options.bindParam with
        | some bp => .ok (bp v)
        | none => .ok (typeEscape ctx.dialect type v)

/-- One step of the interpreter: each field delegates to its step
implementation, all of whose recursive calls go through the previous
level. -/
def interpStep (ctx : QGCtx) (rec : Interp) : Interp where
  escape := fun v opts => escapeImpl rec ctx v opts
  fmtSM := fun m opts => fmtSMImpl rec ctx m opts
  handleImplicitAnd := fun input logOp opts => handleImplicitAndImpl rec input logOp opts
  handleNested := fun lty leftOp whereV allow op path opts =>
    handleNestedImpl rec ctx lty leftOp whereV allow op path opts

/-- The exhausted interpreter: every routine reports fuel exhaustion. -/
def interpZero : Interp where
  escape := fun _ _ => .fuelOut
  fmtSM := fun _ _ => .fuelOut
  handleImplicitAnd := fun _ _ _ => .fuelOut
  handleNested := fun lty _ _ _ _ _ _ => (lty, .fuelOut)

/-- The fueled interpreter (structural recursion on the fuel). -/
def interp (ctx : QGCtx) : Nat → Interp
  | 0 => interpZero
  | fuel + 1 => interpStep ctx (interp ctx fuel)

/-- The public entry point `whereItemsQuery` / `formatWhereOptions`:
compile a where tree to SQL at the given fuel. -/
def compileWhere (ctx : QGCtx) (fuel : Nat) (whereV : Val) (options : EscOpts) : FRes String :=
  formatWhereOptionsImpl (interp ctx fuel) whereV options

/-- The public entry point `escape` (standalone value escaping) at the
given fuel. -/
def escapeValue (ctx : QGCtx) (fuel : Nat) (v : Val) (options : EscOpts) : FRes String :=
  (interp ctx fuel).escape v options

/-! ## Concrete instantiations used by the theorems -/

/-- A dialect that renders identifiers without tick characters (matching
the spec examples, which show attribute names unquoted), escapes string
literals by single-quoting, and renders JSON extraction with arrow
syntax. -/
def plainDialect : Dialect where
  name := "plain"
  tickL := ""
  tickR := ""
  escapeString := fun s => sqS ++ s ++ sqS
  supportsJsonOperations := true
  jsonExtract := fun v path => v ++ String.join (path.map (fun seg => "->" ++ seg))

/-- The default compilation context over the plain dialect. -/
def plainCtx : QGCtx where
  dialect := plainDialect

/-- A dialect with visible double-quote tick characters, used where the
difference between a quoted identifier and verbatim output matters. -/
def tickDialect : Dialect :=
  { plainDialect with name := "ticked", tickL := "\"", tickR := "\"" }

/-- Compilation context over the ticked dialect. -/
def tickCtx : QGCtx where
  dialect := tickDialect

/-- Default (empty) options: no type hint, no bind parameters, no
replacements, no model. -/
def emptyOpts : EscOpts := {}

/-- A model declaring a single JSON-typed attribute named a. -/
def jsonModel : ModelDef := .mk [("a", .json)] [] []

/-! ## Definitions supporting the individual claims -/

/-- A plain scalar that is not a string (used to state the top-level
malformed-input contract separately from the raw-string case). -/
def isNonStringScalar : Val → Bool
  | .null => true
  | .undefinedV => true
  | .bool _ => true
  | .num _ => true
  | _ => false

/-- Whether a literal contains at least one nested-method part. -/
def hasMethodPart (parts : List LitPart) : Bool :=
  parts.any fun p => match p with | .method _ => true | _ => false

/-- Depth scan for `fullyParenthesized`: tracks the parenthesis depth
after the opening parenthesis and checks that it first returns to zero
exactly at the final character. -/
def fpAux : List Char → Nat → Bool
  | [], _ => false
  | [c], d => c == ')' && d == 1
  | c :: rest, d =>
    if c == '(' then fpAux rest (d + 1)
    else if c == ')' then decide (1 < d) && fpAux rest (d - 1)
    else fpAux rest d

/-- A fragment is fully parenthesized when it is one parenthesized group:
it starts with an opening parenthesis whose matching closing parenthesis
is the final character.  This formalizes the wording of the claim; the
source only checks the first and last characters. -/
def fullyParenthesized (s : String) : Bool :=
  match s.data with
  | c :: rest => c == '(' && fpAux rest 1
  | [] => false

/-- The literal parts built by `formatSubstring` for a starts-with match
against the non-string value 1. -/
def c1Parts : List LitPart :=
  [.str "CONCAT(", .method (.value (.num 1)), .str ", ",
   .str (plainDialect.escapeString "%"), .str ")"]

/-- The attribute-level where value of the divergence input. -/
def c1Inner : Val := .obj [(.op .startsWith, .num 1)]

/-- The divergence input of claim C1: a starts-with comparison whose
right-hand operand is not a string, which routes through `formatSubstring`
into a literal with a nested method part. -/
def c1Input : Val := .obj [(.attr "a", c1Inner)]

/-- The left operand used by the concrete compilations. -/
def leftA : Val := .method (.attribute "a")

/-- Where node for an IN comparison against an empty array. -/
def c2InInput : Val := .obj [(.attr "a", .obj [(.op .inOp, .arr [])])]

/-- Where node for a NOT IN comparison against an empty array. -/
def c2NotInInput : Val := .obj [(.attr "a", .obj [(.op .notIn, .arr [])])]

/-- Where node comparing an attribute to null with no explicit operator. -/
def c3IsInput : Val := .obj [(.attr "a", .null)]

/-- Where node comparing an attribute to null under an explicit
inequality operator. -/
def c3IsNotInput : Val := .obj [(.attr "a", .obj [(.op .ne, .null)])]

/-- Where node with nested JSON-path keys under a JSON-typed attribute. -/
def c5Input : Val := .obj [(.attr "a", .obj [(.attr "x", .obj [(.attr "y", .num 1)])])]

/-- Where node negating a single comparison. -/
def c6NotInput : Val := .obj [(.op .not, .obj [(.attr "a", .num 1)])]

/-- Where node negating a disjunction of two conjunctions: the inner
fragment starts and ends with parentheses that do not match each other. -/
def c6Input : Val :=
  .obj [(.op .not, .obj [(.op .or, .arr
    [.obj [(.op .and, .arr [.obj [(.attr "a", .num 1)], .obj [(.attr "b", .num 2)]])],
     .obj [(.op .and, .arr [.obj [(.attr "c", .num 3)], .obj [(.attr "d", .num 4)]])]])])]

/-- Where node with an array value and no explicit operator. -/
def c8Input : Val := .obj [(.attr "a", .arr [.num 1, .num 2, .num 3])]

/-! ## Theorems -/

/-- C7: The fragment-joining rule holds for every list of fragments and
every connective: empty fragments are filtered out; zero remaining
fragments yield the empty string; exactly one remaining fragment is
returned verbatim; with two or more, any fragment containing the
substring " AND " or " OR " case-insensitively is parenthesized before
the fragments are joined with the connective. -/
theorem c7_joining_rule :
    ∀ (op : Operator) (l : List String),
      joinWithLogicalOperator l op = joinWithLogicalOperator (l.filter (fun v => !(v == ""))) op
      ∧ joinWithLogicalOperator ([] : List String) op = ""
      ∧ (∀ s, l.filter (fun v => !(v == "")) = [s] → joinWithLogicalOperator l op = s)
      ∧ (2 ≤ (l.filter (fun v => !(v == ""))).length →
          joinWithLogicalOperator l op =
            String.intercalate (if op == .and then " AND " else " OR ")
              ((l.filter (fun v => !(v == ""))).map
                (fun sql => if testAndOr sql then "(" ++ sql ++ ")" else sql))) := by
  intro op l
  refine ⟨?_, rfl, ?_, ?_⟩
  · simp [joinWithLogicalOperator, List.filter_filter]
  · intro s h
    simp [joinWithLogicalOperator, h]
  · intro h
    rcases hfl : l.filter (fun v => !(v == "")) with _ | ⟨a, _ | ⟨b, rest⟩⟩
    · rw [hfl] at h; simp at h
    · rw [hfl] at h; simp at h
    · simp only [joinWithLogicalOperator, hfl]

/-- C7 witness: the joining rule evaluated at concrete fragment lists. -/
theorem c7_joining_rule_witness :
    joinWithLogicalOperator ["a = 1", "", "b = 2"] .or = "a = 1 OR b = 2"
    ∧ joinWithLogicalOperator ["", "c = 3", ""] .and = "c = 3"
    ∧ joinWithLogicalOperator ["a = 1 AND b = 2", "c = 3"] .or = "(a = 1 AND b = 2) OR c = 3" := by
  obtain ⟨-, -, h1, h2⟩ := c7_joining_rule .or ["a = 1", "", "b = 2"]
  obtain ⟨-, -, h3, -⟩ := c7_joining_rule .and ["", "c = 3", ""]
  obtain ⟨-, -, -, h4⟩ := c7_joining_rule .or ["a = 1 AND b = 2", "c = 3"]
  refine ⟨(h2 (by decide)).trans (by decide), h3 "c = 3" (by decide), (h4 (by decide)).trans (by decide)⟩

/-- C6 counterexample: the claim says a fragment that is not fully
parenthesized gets a fresh pair of parentheses under NOT, but the source
only inspects the first and last characters: negating a disjunction of
two (individually parenthesized) conjunctions only prefixes NOT, so the
NOT binds to the first disjunct instead of the whole fragment. -/
theorem c6_not_wrapping_counterexample :
    compileWhere plainCtx 40 c6Input emptyOpts =
      .ok "NOT (a = 1 AND b = 2) OR (c = 3 AND d = 4)"
    ∧ fullyParenthesized "(a = 1 AND b = 2) OR (c = 3 AND d = 4)" = false
    ∧ wrapWithNot "(a = 1 AND b = 2) OR (c = 3 AND d = 4)"
        ≠ "NOT ((a = 1 AND b = 2) OR (c = 3 AND d = 4))" := by
  refine ⟨by decide, by decide, by decide⟩

/-- C6 (amended): the NOT connective wraps a compiled inner fragment as
NOT (fragment), except that a fragment whose first character is an
opening parenthesis and whose last character is a closing parenthesis
(even when those two do not enclose the whole fragment) is only prefixed
with NOT, and an empty fragment stays empty; negating a single
comparison yields NOT (a = 1) and an already-parenthesized fragment is
not double-wrapped. -/
theorem c6_not_wrapping :
    wrapWithNot "" = ""
    ∧ (∀ s : String, s ≠ "" → strStartsWith "(" s = true → strEndsWith ")" s = true →
        wrapWithNot s = "NOT " ++ s)
    ∧ (∀ s : String, s ≠ "" → (strStartsWith "(" s && strEndsWith ")" s) = false →
        wrapWithNot s = "NOT (" ++ s ++ ")")
    ∧ compileWhere plainCtx 30 c6NotInput emptyOpts = .ok "NOT (a = 1)"
    ∧ wrapWithNot "(a = 1)" = "NOT (a = 1)" := by
  refine ⟨rfl, ?_, ?_, by decide, by decide⟩
  · intro s h1 h2 h3
    simp [wrapWithNot, h1, h2, h3]
  · intro s h1 h2
    simp [wrapWithNot, h1, h2]

/-- C6 witness: the amended NOT-wrapping rule evaluated at concrete
fragments. -/
theorem c6_not_wrapping_witness :
    wrapWithNot "(x IS NULL)" = "NOT (x IS NULL)"
    ∧ wrapWithNot "x IS NULL" = "NOT (x IS NULL)" := by
  obtain ⟨-, h2, h3, -, -⟩ := c6_not_wrapping
  exact ⟨h2 "(x IS NULL)" (by decide) (by decide) (by decide),
    h3 "x IS NULL" (by decide) (by decide)⟩

/-- C5: JSON-path wrapping is associative — wrapping an operand that is
already a JSON path with a further path extends the existing path with
the concatenation of the two sequences instead of nesting wrappers, and
nested string keys under a JSON-typed attribute compile to a single
extraction of a->x->y compared against the rendered value 1. -/
theorem c5_json_path_associative :
    (∀ (base : Val) (p1 p2 : List String),
        wrapJsonPath (.method (.jsonPath base p1)) p2 = .method (.jsonPath base (p1 ++ p2)))
    ∧ compileWhere plainCtx 40 c5Input { model := some jsonModel }
        = .ok ("a->x->y = " ++ sqS ++ "1" ++ sqS) := by
  refine ⟨?_, by decide⟩
  intro base p1 p2
  cases p2 with
  | nil => simp [wrapJsonPath]
  | cons h t => simp [wrapJsonPath]

/-- C9: the standalone escaper raises a hard error for a literally
undefined value; a null value renders the text NULL when bind parameters
are not requested, and the bind placeholder produced by the requested
bind collector for null otherwise.  The final conjunct grounds the step
implementation in the public fueled entry point. -/
theorem c9_escape_undefined_null :
    ∀ (rec : Interp) (ctx : QGCtx) (opts : EscOpts),
      escapeImpl rec ctx .undefinedV opts = .err (.typeError "\"undefined\" cannot be escaped")
      ∧ (opts.bindParam = none → escapeImpl rec ctx .null opts = .ok "NULL")
      ∧ (∀ bp, opts.bindParam = some bp → escapeImpl rec ctx .null opts = .ok (bp .null))
      ∧ (∀ (fuel : Nat) (v : Val),
          escapeValue ctx (fuel + 1) v opts = escapeImpl (interp ctx fuel) ctx v opts) := by
  intro rec ctx opts
  refine ⟨rfl, ?_, ?_, fun fuel v => rfl⟩
  · intro h
    simp [escapeImpl, colRewrite, h]
  · intro bp h
    simp [escapeImpl, colRewrite, h]

/-- C9 witness: the escaper contract evaluated at concrete inputs, in
both inline and bind mode. -/
theorem c9_escape_undefined_null_witness :
    escapeValue plainCtx 5 .undefinedV emptyOpts = .err (.typeError "\"undefined\" cannot be escaped")
    ∧ escapeValue plainCtx 5 .null emptyOpts = .ok "NULL"
    ∧ escapeValue plainCtx 5 .null { bindParam := some (fun _ => "$1") } = .ok "$1" := by
  obtain ⟨h1, h2, -, h4⟩ := c9_escape_undefined_null (interp plainCtx 4) plainCtx emptyOpts
  obtain ⟨-, -, h3, h4b⟩ := c9_escape_undefined_null (interp plainCtx 4) plainCtx
    { bindParam := some (fun _ => "$1") }
  exact ⟨(h4 4 .undefinedV).trans h1, (h4 4 .null).trans (h2 rfl),
    (h4b 4 .null).trans (h3 (fun _ => "$1") rfl)⟩

/-- C2: for every left operand, IN against an empty array renders
left IN (NULL) (an always-false comparison) and NOT IN against an empty
array renders the empty string; a right operand that is neither an array
nor a literal raw fragment is a hard error for both; and the two empty
cases compile end-to-end as stated. -/
theorem c2_in_empty_array :
    ∀ (rec : Interp) (left : Val) (lty rty : Option DataType) (opts : EscOpts),
      (∀ l, rec.escape left { opts with type := lty <|> rty } = .ok l →
          opInImpl rec left lty .inOp (.arr []) rty opts = .ok (joinBinOp l "IN" "(NULL)"))
      ∧ opInImpl rec left lty .notIn (.arr []) rty opts = .ok ""
      ∧ (∀ right, isArrV right = false → isLiteralVal right = false →
          opInImpl rec left lty .inOp right rty opts = .err inNotArrayError
          ∧ opInImpl rec left lty .notIn right rty opts = .err inNotArrayError)
      ∧ compileWhere plainCtx 30 c2InInput emptyOpts = .ok "a IN (NULL)"
      ∧ compileWhere plainCtx 30 c2NotInInput emptyOpts = .ok "" := by
  intro rec left lty rty opts
  refine ⟨?_, rfl, ?_, by decide, by decide⟩
  · intro l h
    simp [opInImpl, h, FRes.bind, FRes.map, opSqlOf, operatorMap]
  · intro right h1 h2
    cases right with
    | arr items =>
      cases items with
      | nil => simp [isArrV] at h1
      | cons a as => simp [isArrV] at h1
    | method m =>
      cases m
      case literal parts => simp [isLiteralVal] at h2
      all_goals exact ⟨rfl, rfl⟩
    | null => exact ⟨rfl, rfl⟩
    | undefinedV => exact ⟨rfl, rfl⟩
    | bool b => exact ⟨rfl, rfl⟩
    | num n => exact ⟨rfl, rfl⟩
    | str s => exact ⟨rfl, rfl⟩
    | obj entries => exact ⟨rfl, rfl⟩

/-- C2 witness: the IN / NOT IN contract evaluated at a concrete left
operand and a concrete non-array right operand. -/
theorem c2_in_empty_array_witness :
    opInImpl (interp plainCtx 3) leftA none .inOp (.arr []) none emptyOpts = .ok "a IN (NULL)"
    ∧ opInImpl (interp plainCtx 3) leftA none .inOp (.num 5) none emptyOpts
        = .err inNotArrayError := by
  obtain ⟨h1, -, h3, -, -⟩ := c2_in_empty_array (interp plainCtx 3) leftA none none emptyOpts
  exact ⟨(h1 "a" (by decide)).trans (by decide), (h3 (.num 5) (by decide) (by decide)).1⟩

/-- C3: a null right-hand value with no explicit operator infers IS; an
explicit equality operator is rewritten to IS and explicit inequality to
IS NOT; so comparing an attribute to null compiles to a IS NULL and an
explicit inequality against null compiles to a IS NOT NULL. -/
theorem c3_null_comparison :
    (∀ lty : Option DataType, inferOperator lty .null = .is)
    ∧ rewriteNullOp .eq .null = .is
    ∧ rewriteNullOp .ne .null = .isNot
    ∧ (∀ (o : Operator) (v : Val), v ≠ .null → rewriteNullOp o v = o)
    ∧ compileWhere plainCtx 30 c3IsInput emptyOpts = .ok "a IS NULL"
    ∧ compileWhere plainCtx 30 c3IsNotInput emptyOpts = .ok "a IS NOT NULL" := by
  refine ⟨fun lty => rfl, rfl, rfl, ?_, by decide, by decide⟩
  intro o v h
  cases v with
  | null => exact absurd rfl h
  | undefinedV => rfl
  | bool b => rfl
  | num n => rfl
  | str s => rfl
  | arr items => rfl
  | obj entries => rfl
  | method m => rfl

/-- C3 witness: the null rewrite evaluated at a non-null value. -/
theorem c3_null_comparison_witness :
    rewriteNullOp .eq (.num 7) = .eq := by
  obtain ⟨-, -, -, h4, -, -⟩ := c3_null_comparison
  exact h4 .eq (.num 7) (fun h => Val.noConfusion h)

/-- C8: with no explicit operator, the operator is inferred as IN when
the right-hand value is an array and the left declared type is not an
array type, as IS when the right-hand value is null, and as equality
otherwise (including an array right-hand value over an array-typed left
operand); an array under an attribute compiles to a IN (1, 2, 3). -/
theorem c8_operator_inference :
    (∀ (lty : Option DataType) (items : List Val), isArrayTypeO lty = false →
        inferOperator lty (.arr items) = .inOp)
    ∧ (∀ lty : Option DataType, inferOperator lty .null = .is)
    ∧ (∀ (t : DataType) (items : List Val), inferOperator (some (.arrayOf t)) (.arr items) = .eq)
    ∧ (∀ (lty : Option DataType) (right : Val), isArrV right = false → right ≠ .null →
        inferOperator lty right = .eq)
    ∧ compileWhere plainCtx 30 c8Input emptyOpts = .ok "a IN (1, 2, 3)" := by
  refine ⟨?_, fun lty => rfl, fun t items => rfl, ?_, by decide⟩
  · intro lty items h
    simp [inferOperator, isArrV, h]
  · intro lty right h1 h2
    cases right with
    | null => exact absurd rfl h2
    | arr items => simp [isArrV] at h1
    | undefinedV => rfl
    | bool b => rfl
    | num n => rfl
    | str s => rfl
    | obj entries => rfl
    | method m => rfl

/-- C8 witness: the inference rule evaluated at concrete inputs. -/
theorem c8_operator_inference_witness :
    inferOperator none (.arr [.num 1]) = .inOp
    ∧ inferOperator none (.str "x") = .eq := by
  obtain ⟨h1, -, -, h4, -⟩ := c8_operator_inference
  exact ⟨h1 none [.num 1] (by decide), h4 none (.str "x") (by decide) (fun h => Val.noConfusion h)⟩

/-- C4: a plain string at the top level of the where options is rejected
outright with a hard error (never passed through as raw SQL), and every
other plain scalar at the top level is rejected with a wrapped
malformed-input error: boolean sub-expressions, lists and mappings are
the only valid top-level shapes. -/
theorem c4_top_level_scalar_rejected :
    (∀ (ctx : QGCtx) (fuel : Nat) (opts : EscOpts) (s : String),
        compileWhere ctx fuel (.str s) opts = .err rawQueryError)
    ∧ (∀ (ctx : QGCtx) (fuel : Nat) (opts : EscOpts) (v : Val), isNonStringScalar v = true →
        compileWhere ctx (fuel + 1) v opts =
          .err (.invalidWhereClause (whereErrMsg v) (.typeError (invalidQueryMsg v)))) := by
  refine ⟨fun ctx fuel opts s => rfl, ?_⟩
  intro ctx fuel opts v h
  cases v with
  | null => rfl
  | undefinedV => rfl
  | bool b => rfl
  | num n => rfl
  | str s => exact Bool.noConfusion h
  | arr items => exact Bool.noConfusion h
  | obj entries => exact Bool.noConfusion h
  | method m => exact Bool.noConfusion h

/-- C4 witness: the top-level rejection evaluated at a concrete raw
string and a concrete number. -/
theorem c4_top_level_scalar_rejected_witness :
    compileWhere plainCtx 10 (.str "id = 1; DROP TABLE users") emptyOpts = .err rawQueryError
    ∧ compileWhere plainCtx 10 (.num 5) emptyOpts =
        .err (.invalidWhereClause (whereErrMsg (.num 5)) (.typeError (invalidQueryMsg (.num 5)))) := by
  obtain ⟨h1, h2⟩ := c4_top_level_scalar_rejected
  exact ⟨h1 plainCtx 10 emptyOpts "id = 1; DROP TABLE users",
    h2 plainCtx 9 emptyOpts (.num 5) (by decide)⟩

/-- C10 counterexample: the legacy column-reference object is not always
rendered as a quoted identifier — a reference whose text starts with a
star is rendered verbatim as a bare star, not as the quoted identifier
the ticked dialect would produce. -/
theorem c10_col_counterexample :
    escapeValue tickCtx 5 (.obj [(.op .col, .str "*")]) emptyOpts = .ok "*"
    ∧ FRes.ok "*" ≠ FRes.ok (quoteIdentifierD tickDialect "*") := by
  exact ⟨by decide, by decide⟩

/-- C10 (amended): a plain-object value whose keys include the legacy
column-reference symbol is not escaped as data: it is converted, before
any undefined/null/type handling, to a column-reference operand built
from the string stored under that key, and rendered as a quoted
identifier unless that string starts with a star, in which case it is
rendered verbatim as a star. -/
theorem c10_col_rewrite :
    ∀ (ctx : QGCtx) (fuel : Nat) (opts : EscOpts) (entries : List (ObjKey × Val)) (s : String),
      objGet entries (.op .col) = some (.str s) →
      escapeValue ctx (fuel + 2) (.obj entries) opts =
        (if strStartsWith "*" s then FRes.ok "*"
         else FRes.ok (quoteIdentifierD ctx.dialect s)) := by
  intro ctx fuel opts entries s h
  simp only [escapeValue, interp, interpStep, escapeImpl, colRewrite, h, fmtSMImpl, formatColImpl]

/-- C10 witness: the column-reference rewrite evaluated at a concrete
object, ignoring the declared type hint entirely. -/
theorem c10_col_rewrite_witness :
    escapeValue tickCtx 5 (.obj [(.op .col, .str "name")]) { type := some .integer }
      = .ok (quoteIdentifierD tickDialect "name") := by
  exact (c10_col_rewrite tickCtx 3 { type := some .integer }
    [(.op .col, .str "name")] "name" rfl).trans (by decide)

/-! ### The C1 divergence chain

`formatLiteral` maps over the literal parts but formats the whole literal
(`piece`) instead of the part whenever the part is a `SequelizeMethod`, so
any literal containing a method part recurses into itself: the interpreter
runs out of fuel at every fuel. -/

/-- The error-propagating map runs out of fuel as soon as any element
does, provided the other elements succeed. -/
theorem mapFRes_fuelOut_of_method (f : LitPart → FRes String)
    (hstr : ∀ s, f (.str s) = .ok s) (hm : ∀ m, f (.method m) = .fuelOut) :
    ∀ l, hasMethodPart l = true → mapFRes f l = .fuelOut := by
  intro l
  induction l with
  | nil => intro h; simp [hasMethodPart] at h
  | cons p tl ih =>
    intro h
    cases p with
    | str s =>
      have htl : hasMethodPart tl = true := by
        simpa [hasMethodPart] using h
      simp [mapFRes, hstr, ih htl, FRes.map]
    | method m => simp [mapFRes, hm]

/-- Formatting a literal with at least one method part exhausts any
amount of fuel: the faithful `piece`-for-`part` transcription recurses on
the whole literal. -/
theorem literal_method_diverges :
    ∀ (ctx : QGCtx) (fuel : Nat) (parts : List LitPart) (opts : EscOpts),
      hasMethodPart parts = true →
      (interp ctx fuel).fmtSM (.literal parts) opts = .fuelOut := by
  intro ctx fuel
  induction fuel with
  | zero => intro parts opts _; rfl
  | succ n ih =>
    intro parts opts h
    show formatLiteralImpl (interp ctx n) parts opts = .fuelOut
    have hmap := mapFRes_fuelOut_of_method
      (fun part =>
        match part with
        | LitPart.str s => FRes.ok s
        | LitPart.method _ => (interp ctx n).fmtSM (.literal parts) opts)
      (fun _ => rfl) (fun _ => ih parts opts h) parts h
    simp [formatLiteralImpl, hmap, FRes.bind]

/-- Escaping a literal with a method part exhausts any amount of fuel. -/
theorem escape_literal_diverges :
    ∀ (ctx : QGCtx) (fuel : Nat) (parts : List LitPart) (opts : EscOpts),
      hasMethodPart parts = true →
      (interp ctx fuel).escape (.method (.literal parts)) opts = .fuelOut := by
  intro ctx fuel parts opts h
  cases fuel with
  | zero => rfl
  | succ n =>
    show (interp ctx n).fmtSM (.literal parts) opts = .fuelOut
    exact literal_method_diverges ctx n parts opts h

/-- Escaping the plain attribute a over the plain context either runs out
of fuel or renders the bare identifier. -/
theorem escape_attr_a_cases :
    ∀ (fuel : Nat) (opts : EscOpts), opts.model = none →
      (interp plainCtx fuel).escape (.method (.attribute "a")) opts = .fuelOut
      ∨ (interp plainCtx fuel).escape (.method (.attribute "a")) opts = .ok "a" := by
  intro fuel opts h
  match fuel with
  | 0 => exact Or.inl rfl
  | 1 => exact Or.inl rfl
  | (n + 2) =>
    obtain ⟨t, bp, repl, mo⟩ := opts
    cases mo with
    | some m => exact Option.noConfusion h
    | none => exact Or.inr rfl

/-- The binary formatter for the CONCAT literal built by `formatSubstring`
exhausts any amount of fuel. -/
theorem c1_binop_diverges :
    ∀ fuel : Nat,
      formatBinaryOperationImpl (interp plainCtx fuel) (.method (.attribute "a")) none .like
        (.method (.literal c1Parts)) none emptyOpts = .fuelOut := by
  intro fuel
  have hlit := escape_literal_diverges plainCtx fuel c1Parts
    { type := none, bindParam := emptyOpts.bindParam, replacements := emptyOpts.replacements,
      model := emptyOpts.model } (by decide)
  rcases escape_attr_a_cases fuel
      { type := none, bindParam := emptyOpts.bindParam, replacements := emptyOpts.replacements,
        model := emptyOpts.model } rfl with h | h <;>
    simp [formatBinaryOperationImpl, operatorMap, h, hlit, formatOpAnyAllImpl,
      FRes.bind, FRes.map]

/-- The starts-with handler applied to the non-string value 1 exhausts
any amount of fuel. -/
theorem c1_substring_diverges :
    ∀ fuel : Nat,
      formatSubstringImpl (interp plainCtx fuel) plainCtx (.method (.attribute "a")) none .like
        (.num 1) none emptyOpts false true = .fuelOut := by
  intro fuel
  show formatBinaryOperationImpl (interp plainCtx fuel) (.method (.attribute "a")) none .like
    (.method (.literal c1Parts)) none emptyOpts = .fuelOut
  exact c1_binop_diverges fuel

/-- The leaf resolver for the starts-with comparison against 1 exhausts
any amount of fuel. -/
theorem c1_leaf_diverges :
    ∀ fuel : Nat,
      formatWhereLeafImpl (interp plainCtx fuel) plainCtx none (.method (.attribute "a"))
        (some .startsWith) (.num 1) emptyOpts = (none, .fuelOut) := by
  intro fuel
  show ((none : Option DataType),
    formatSubstringImpl (interp plainCtx fuel) plainCtx (.method (.attribute "a")) none .like
      (.num 1) none emptyOpts false true) = ((none : Option DataType), FRes.fuelOut)
  rw [c1_substring_diverges fuel]

/-- The nested attribute-value handler for the starts-with mapping
exhausts any amount of fuel. -/
theorem c1_nested_diverges :
    ∀ fuel : Nat,
      (interp plainCtx fuel).handleNested none (.method (.attribute "a")) c1Inner true .and []
        emptyOpts = (none, .fuelOut) := by
  intro fuel
  cases fuel with
  | zero => rfl
  | succ n =>
    have hleaf := c1_leaf_diverges n
    show handleNestedImpl (interp plainCtx n) plainCtx none (.method (.attribute "a")) c1Inner
      true .and [] emptyOpts = (none, .fuelOut)
    simp [c1Inner, handleNestedImpl, nestedKeysLoop, getEntry, objGet, wrapJsonPath, hleaf,
      FRes.map]

/-- The pojo-where formatter for the divergence input exhausts any amount
of fuel. -/
theorem c1_pojo_diverges :
    ∀ fuel : Nat,
      formatPojoWhereImpl (interp plainCtx fuel) (.method (.attribute "a")) c1Inner emptyOpts
        = .fuelOut := by
  intro fuel
  show ((interp plainCtx fuel).handleNested none (.method (.attribute "a")) c1Inner true .and []
    emptyOpts).2 = .fuelOut
  rw [c1_nested_diverges fuel]

/-- The top-level handler for the divergence input exhausts any amount of
fuel. -/
theorem c1_implicit_diverges :
    ∀ fuel : Nat,
      (interp plainCtx fuel).handleImplicitAnd (.obj [(.attr "a", c1Inner)]) .and emptyOpts
        = .fuelOut := by
  intro fuel
  cases fuel with
  | zero => rfl
  | succ n =>
    have hp := c1_pojo_diverges n
    show handleImplicitAndImpl (interp plainCtx n) (.obj [(.attr "a", c1Inner)]) .and emptyOpts
      = .fuelOut
    simp [handleImplicitAndImpl, implicitKeysLoop, getComplexKeysM, getEntry, objGet, hp,
      FRes.map]

/-- C1 (code bug): the claim says every compilation terminates, but the
source `formatLiteral` maps over the literal parts and formats `piece`
(the whole literal) instead of `part`, so the starts-with comparison
against the non-string value 1 — which routes through `formatSubstring`
into a literal with a nested method part — never terminates: the
interpreter returns fuel-out at every fuel. -/
theorem c1_compilation_diverges :
    ∀ fuel : Nat, compileWhere plainCtx fuel c1Input emptyOpts = .fuelOut := by
  intro fuel
  have h := c1_implicit_diverges fuel
  show formatWhereOptionsImpl (interp plainCtx fuel) c1Input emptyOpts = .fuelOut
  rw [formatWhereOptionsImpl.eq_def]
  simp [c1Input, h]

end SequelizeWhere
